import Mathlib

/-!
Verification of the time-series analytics core of `uh_mcp.py` (Ultrahuman
nocturnal health analysis).

Shallow embedding conventions:
* a JSON numeric value is modelled as `ℚ` (sample values) or `Int`
  (epoch-second timestamps);
* a possibly-missing dictionary key is an `Option`;
* Python truthiness on an optional numeric field (`if not bedtime_start`)
  is modelled explicitly: `none` and `some 0` are both falsy;
* Python `int()` truncation toward zero is `pyInt`; Python's `round(x, 2)`
  (round half to even) is `round2`;
* an analyzer that returns the empty dict `{}` is modelled as returning
  `none`.
-/

set_option autoImplicit false

namespace UhMcp

/-- One sensor sample: `{"timestamp": epoch-seconds, "value": number}`. -/
structure Sample where
  timestamp : Int
  value : ℚ
deriving DecidableEq, Repr

/-- A sleep-stage entry of the sleep object's `sleep_stages` list; both keys
may be absent. -/
structure SleepStage where
  type : Option String
  percentage : Option ℚ
deriving DecidableEq, Repr

/-- The sleep object.  `avg_sleep_hrv` is `none` when the key is absent and
`some v` when the key is present, where `v` models `["avg_sleep_hrv"].get("value")`
(itself possibly `none`). -/
structure SleepObj where
  bedtime_start : Option Int
  bedtime_end : Option Int
  avg_sleep_hrv : Option (Option ℚ)
  sleep_stages : List SleepStage
deriving DecidableEq, Repr

/-- The sleep object produced when the Sleep stream is absent (`{}`). -/
def emptySleepObj : SleepObj := ⟨none, none, none, []⟩

/-- Python truthiness of an optional numeric field: `not x` is true for a
missing key (`None`) and for the number `0`. -/
def pyTruthy : Option Int → Bool
  | none => false
  | some v => v != 0

/-- Python `int()` on a rational: truncation toward zero. -/
def pyInt (q : ℚ) : Int :=
  if q < 0 then ⌈q⌉ else ⌊q⌋

/-- Python float floor-division `x // y` (result is the floor, as a number). -/
def pyFloorDiv (x y : ℚ) : ℚ :=
  ((⌊x / y⌋ : Int) : ℚ)

/-- Python float modulo `x % y`, defined by the floor-division identity. -/
def pyMod (x y : ℚ) : ℚ :=
  x - y * pyFloorDiv x y

/-- Round half to even to the nearest integer (Python's `round`). -/
def roundHalfEven (x : ℚ) : Int :=
  if x - (⌊x⌋ : ℚ) < 1/2 then ⌊x⌋
  else if 1/2 < x - (⌊x⌋ : ℚ) then ⌊x⌋ + 1
  else if ⌊x⌋ % 2 = 0 then ⌊x⌋ else ⌊x⌋ + 1

/-- Python `round(x, 2)`: round half to even at two decimal places. -/
def round2 (x : ℚ) : ℚ :=
  ((roundHalfEven (x * 100) : Int) : ℚ) / 100

/-- The window filter shared by the heart-rate, temperature and HRV
analyses: `[v for v in values if v["timestamp"] >= bedtime_start and
v["timestamp"] <= bedtime_end]`. -/
def filterWindow (s e : Int) (l : List Sample) : List Sample :=
  l.filter (fun x => decide (s ≤ x.timestamp ∧ x.timestamp ≤ e))

/-- Stable insertion of a sample into a timestamp-sorted list, placing it
before the first strictly-later-or-equal element processed from the right;
`sortByTs` below is extensionally Python's stable `sorted(key=timestamp)`. -/
def insertByTs (x : Sample) : List Sample → List Sample
  | [] => [x]
  | y :: ys => if x.timestamp ≤ y.timestamp then x :: y :: ys else y :: insertByTs x ys

/-- `sorted(data, key=lambda x: x["timestamp"])` (stable sort by timestamp). -/
def sortByTs (l : List Sample) : List Sample :=
  l.foldr insertByTs []

/-- A detected drop event (`drops.append({...})` in the source); `datetime`
is derived from `timestamp` and not modelled separately. -/
structure DropEvent where
  timestamp : Int
  from_value : ℚ
  to_value : ℚ
  drop : ℚ
  time_diff_minutes : ℚ
deriving DecidableEq, Repr

/-- The body of the heart-rate scan loop of `find_heart_rate_drops`, with
`prev` holding the previous sample (`prev_hr`/`prev_timestamp`). -/
def hrDropLoop (prev : Sample) : List Sample → List DropEvent
  | [] => []
  | entry :: rest =>
    let hr_change := entry.value - prev.value
    (if hr_change ≤ -10 then
       (let time_diff_minutes := ((entry.timestamp - prev.timestamp : Int) : ℚ) / 60
        if time_diff_minutes ≤ 30 then
          [⟨entry.timestamp, prev.value, entry.value, |hr_change|, time_diff_minutes⟩]
        else [])
     else []) ++ hrDropLoop entry rest

/-- `find_heart_rate_drops(hr_values, sleep_obj)`: filter to the sleep
window, sort by timestamp, walk consecutive pairs.  The guard
`if not bedtime_start or not bedtime_end: return []` is Python truthiness,
so a missing or zero boundary yields `[]`. -/
def find_heart_rate_drops (hr_values : List Sample) (sleep_obj : SleepObj) :
    List DropEvent :=
  match sleep_obj.bedtime_start, sleep_obj.bedtime_end with
  | some s, some e =>
    if s = 0 ∨ e = 0 then []
    else
      match sortByTs (filterWindow s e hr_values) with
      | [] => []
      | first :: rest => hrDropLoop first rest
  | _, _ => []

/-- Pairs `(a, b₁), (b₁, b₂), ...` of an element followed by a list. -/
def pairsFrom (a : Sample) : List Sample → List (Sample × Sample)
  | [] => []
  | b :: rest => (a, b) :: pairsFrom b rest

/-- The consecutive pairs of a list, in order (spec side: "walk consecutive
pairs"). -/
def consecutivePairs : List Sample → List (Sample × Sample)
  | [] => []
  | a :: rest => pairsFrom a rest

/-- Spec-side qualification of a heart-rate pair: an event is emitted exactly
when `current.value - previous.value <= -10` and the elapsed time is at most
30 minutes, keyed to the later sample's timestamp, with magnitude
`|to - from|`. -/
def qualifiesHrDrop (p : Sample × Sample) : Option DropEvent :=
  if p.2.value - p.1.value ≤ -10 ∧ ((p.2.timestamp - p.1.timestamp : Int) : ℚ) / 60 ≤ 30 then
    some ⟨p.2.timestamp, p.1.value, p.2.value, |p.2.value - p.1.value|,
      ((p.2.timestamp - p.1.timestamp : Int) : ℚ) / 60⟩
  else none

/-- Python `min(entries, key=lambda x: x["value"])`: scan the list keeping
the current entry unless a strictly smaller value appears, so the first
minimal entry wins. -/
def minByValue (a : Sample) : List Sample → Sample
  | [] => a
  | x :: xs => minByValue (if x.value < a.value then x else a) xs

/-- `find_lowest_heart_rate(hr_values, sleep_obj)`: the same truthiness
guard and window filter as `find_heart_rate_drops`, then Python `min` with
a value key; `{}` (no result) is modelled as `none`. -/
def find_lowest_heart_rate (hr_values : List Sample) (sleep_obj : SleepObj) :
    Option Sample :=
  match sleep_obj.bedtime_start, sleep_obj.bedtime_end with
  | some s, some e =>
    if s = 0 ∨ e = 0 then none
    else
      match filterWindow s e hr_values with
      | [] => none
      | x :: xs => some (minByValue x xs)
  | _, _ => none

/-- `next((stage for stage in sleep_stages if stage.get("type") == tag), {})`
followed by `.get("percentage", 0)`. -/
def stagePercentage (tag : String) (stages : List SleepStage) : ℚ :=
  ((stages.find? (fun st => st.type == some tag)).bind (fun st => st.percentage)).getD 0

/-- The metrics dict built by `get_sleep_metrics`; `start`/`end` keys are
`startTs`/`endTs` (the derived `datetime`s are not modelled separately). -/
structure SleepMetrics where
  startTs : Int
  endTs : Int
  duration_minutes : ℚ
  duration_formatted : String
  deep_sleep_percentage : ℚ
  light_sleep_percentage : ℚ
  rem_percentage : ℚ
  awake_percentage : ℚ
deriving DecidableEq, Repr

/-- `get_sleep_metrics(sleep_obj)`: truthiness guard on the window
boundaries (the leading `if not sleep_obj: return {}` is subsumed by it),
then duration decomposition `int(minutes // 60)` / `int(minutes % 60)` and
stage percentages defaulting to 0. -/
def get_sleep_metrics (sleep_obj : SleepObj) : Option SleepMetrics :=
  match sleep_obj.bedtime_start, sleep_obj.bedtime_end with
  | some s, some e =>
    if s = 0 ∨ e = 0 then none
    else
      let sleep_duration_minutes : ℚ := ((e - s : Int) : ℚ) / 60
      let sleep_hours : Int := pyInt (pyFloorDiv sleep_duration_minutes 60)
      let sleep_minutes : Int := pyInt (pyMod sleep_duration_minutes 60)
      some ⟨s, e, sleep_duration_minutes,
        toString sleep_hours ++ "h " ++ toString sleep_minutes ++ "m",
        stagePercentage "deep_sleep" sleep_obj.sleep_stages,
        stagePercentage "light_sleep" sleep_obj.sleep_stages,
        stagePercentage "rem_sleep" sleep_obj.sleep_stages,
        stagePercentage "awake" sleep_obj.sleep_stages⟩
  | _, _ => none

/-- Sum of the `value` fields (`sum(hrv["value"] for hrv in sleep_hrv)`). -/
def sumValues (l : List Sample) : ℚ :=
  (l.map (fun x => x.value)).sum

/-- The average-HRV block of `analyze_night_heart_rate` (source lines
439-450): a present `avg_sleep_hrv` key short-circuits to its `value` entry;
otherwise, when the raw HRV list is non-empty and both window boundaries are
truthy, the in-window mean truncated by `int()`; otherwise `None`. -/
def compute_avg_hrv (hrv_values : List Sample) (sleep_obj : SleepObj) : Option ℚ :=
  match sleep_obj.avg_sleep_hrv with
  | some v => v
  | none =>
    match sleep_obj.bedtime_start, sleep_obj.bedtime_end with
    | some s, some e =>
      if hrv_values = [] ∨ s = 0 ∨ e = 0 then none
      else
        match filterWindow s e hrv_values with
        | [] => none
        | _ :: _ =>
          some ((pyInt (sumValues (filterWindow s e hrv_values)
            / ((filterWindow s e hrv_values).length : ℚ)) : Int) : ℚ)
    | _, _ => none

/-- A sample is inside the sleep window of `sleep_obj` (both boundaries
present and the timestamp between them, inclusively). -/
def inSleepWindow (sleep_obj : SleepObj) (x : Sample) : Prop :=
  ∃ s e, sleep_obj.bedtime_start = some s ∧ sleep_obj.bedtime_end = some e
    ∧ s ≤ x.timestamp ∧ x.timestamp ≤ e

/-- Python `max(entries, key=lambda x: x["value"])`: the first maximal entry
wins (the current entry is kept unless a strictly larger value appears). -/
def maxByValue (a : Sample) : List Sample → Sample
  | [] => a
  | x :: xs => maxByValue (if a.value < x.value then x else a) xs

/-- Python `min` over a list of numbers, folded from a first element. -/
def foldMin (a : ℚ) : List ℚ → ℚ
  | [] => a
  | x :: xs => foldMin (min a x) xs

/-- Python `max` over a list of numbers, folded from a first element. -/
def foldMax (a : ℚ) : List ℚ → ℚ
  | [] => a
  | x :: xs => foldMax (max a x) xs

/-- The body of the temperature scan loop of `analyze_temperature_data`:
same consecutive-pair walk as heart rate, threshold `<= -1.0`, and NO
elapsed-time ceiling; the reported temperatures and magnitude are rounded
to 2 decimal places. -/
def tempDropLoop (prev : Sample) : List Sample → List DropEvent
  | [] => []
  | entry :: rest =>
    let temp_change := entry.value - prev.value
    (if temp_change ≤ -1 then
       [⟨entry.timestamp, round2 prev.value, round2 entry.value, round2 |temp_change|,
         ((entry.timestamp - prev.timestamp : Int) : ℚ) / 60⟩]
     else []) ++ tempDropLoop entry rest

/-- The profile dict returned by `analyze_temperature_data`; the derived
`datetime`s for the extreme samples are represented by their timestamps. -/
structure TempProfile where
  min_temp : ℚ
  max_temp : ℚ
  avg_temp : ℚ
  variation : ℚ
  min_temp_time : Int
  max_temp_time : Int
  early_sleep_avg : Option ℚ
  late_sleep_avg : Option ℚ
  temp_drops : List DropEvent
deriving DecidableEq, Repr

/-- `analyze_temperature_data(temp_values, sleep_obj)`: truthiness guard
(`if not bedtime_start or not bedtime_end or not temp_values`), window
filter, sort, aggregate stats (all rounded to 2 decimals), early/late
30-minute sub-window means, and the temperature drop walk. -/
def analyze_temperature_data (temp_values : List Sample) (sleep_obj : SleepObj) :
    Option TempProfile :=
  match sleep_obj.bedtime_start, sleep_obj.bedtime_end with
  | some s, some e =>
    if s = 0 ∨ e = 0 ∨ temp_values = [] then none
    else
      match sortByTs (filterWindow s e temp_values) with
      | [] => none
      | x :: xs =>
        let sorted_data := x :: xs
        let min_temp := foldMin x.value (xs.map (fun t => t.value))
        let max_temp := foldMax x.value (xs.map (fun t => t.value))
        let avg_temp := sumValues sorted_data / (sorted_data.length : ℚ)
        let temp_variation := max_temp - min_temp
        let min_temp_entry := minByValue x xs
        let max_temp_entry := maxByValue x xs
        let early_sleep_temps := sorted_data.filter (fun t => decide (t.timestamp - s ≤ 1800))
        let late_sleep_temps := sorted_data.filter (fun t => decide (e - t.timestamp ≤ 1800))
        let early_sleep_avg : Option ℚ :=
          if early_sleep_temps = [] then none
          else some (sumValues early_sleep_temps / (early_sleep_temps.length : ℚ))
        let late_sleep_avg : Option ℚ :=
          if late_sleep_temps = [] then none
          else some (sumValues late_sleep_temps / (late_sleep_temps.length : ℚ))
        some ⟨round2 min_temp, round2 max_temp, round2 avg_temp, round2 temp_variation,
          min_temp_entry.timestamp, max_temp_entry.timestamp,
          early_sleep_avg.map round2, late_sleep_avg.map round2,
          tempDropLoop x xs⟩
  | _, _ => none

/-- Spec-side qualification of a temperature pair: an event is emitted
exactly when `current.value - previous.value <= -1.0`, with no condition on
the elapsed time. -/
def qualifiesTempDrop (p : Sample × Sample) : Option DropEvent :=
  if p.2.value - p.1.value ≤ -1 then
    some ⟨p.2.timestamp, round2 p.1.value, round2 p.2.value, round2 |p.2.value - p.1.value|,
      ((p.2.timestamp - p.1.timestamp : Int) : ℚ) / 60⟩
  else none

/-- The per-metric `object` payload: `object.get("values", [])` for the
hr/hrv/temp streams, the object itself for the Sleep stream. -/
structure MetricObject where
  values : List Sample
  sleep : SleepObj
deriving DecidableEq, Repr

/-- One entry of `metric_data`.  `type = none` models an entry whose
`m["type"]` lookup raises (the key is absent). -/
structure MetricEntry where
  type : Option String
  object : MetricObject
deriving DecidableEq, Repr

/-- The raw document: `metric_data = none` models a document where the
`data` or `metric_data` key is absent (`.get(..., default)` collapses both
to `[]`). -/
structure ApiData where
  metric_data : Option (List MetricEntry)
deriving DecidableEq, Repr

/-- `next((m for m in metric_data if m["type"] == tag), None)`: scan until
the first match; an entry without a `type` key raises (modelled as
`Except.error`) if the scan reaches it. -/
def findFirstType (tag : String) : List MetricEntry → Except Unit (Option MetricEntry)
  | [] => Except.ok none
  | m :: rest =>
    match m.type with
    | none => Except.error ()
    | some t => if t = tag then Except.ok (some m) else findFirstType tag rest

/-- `entry.get("object", {}).get("values", [])` over an optional entry. -/
def valuesOf (o : Option MetricEntry) : List Sample :=
  match o with
  | some m => m.object.values
  | none => []

/-- `entry.get("object", {})` over an optional Sleep entry. -/
def sleepOf (o : Option MetricEntry) : SleepObj :=
  match o with
  | some m => m.object.sleep
  | none => emptySleepObj

/-- `extract_metrics_data(api_data)`: the four scans run inside one
`try/except`, so the first raising scan throws the whole extraction to the
empty defaults for all four streams. -/
def extract_metrics_data (api : ApiData) :
    List Sample × SleepObj × List Sample × List Sample :=
  let metric_data := api.metric_data.getD []
  match findFirstType "hr" metric_data with
  | Except.error _ => ([], emptySleepObj, [], [])
  | Except.ok hr_data =>
    match findFirstType "Sleep" metric_data with
    | Except.error _ => ([], emptySleepObj, [], [])
    | Except.ok sleep_data =>
      match findFirstType "hrv" metric_data with
      | Except.error _ => ([], emptySleepObj, [], [])
      | Except.ok hrv_data =>
        match findFirstType "temp" metric_data with
        | Except.error _ => ([], emptySleepObj, [], [])
        | Except.ok temp_data =>
          (valuesOf hr_data, sleepOf sleep_data, valuesOf hrv_data, valuesOf temp_data)

theorem mem_insertByTs (x a : Sample) (l : List Sample) :
    a ∈ insertByTs x l ↔ a = x ∨ a ∈ l := by
  induction l with
  | nil => simp [insertByTs]
  | cons y ys ih =>
      by_cases h : x.timestamp ≤ y.timestamp
      · simp [insertByTs, h]
      · simp [insertByTs, h, ih]
        tauto

theorem mem_sortByTs (a : Sample) (l : List Sample) :
    a ∈ sortByTs l ↔ a ∈ l := by
  induction l with
  | nil => simp [sortByTs]
  | cons y ys ih =>
      simp only [sortByTs, List.foldr] at ih ⊢
      rw [mem_insertByTs]
      simp [ih]

theorem mem_filterWindow (s e : Int) (l : List Sample) (x : Sample) :
    x ∈ filterWindow s e l ↔ x ∈ l ∧ s ≤ x.timestamp ∧ x.timestamp ≤ e := by
  simp [filterWindow, List.mem_filter]

/-- C3: For every defined sleep window `[start, end]` and every sample
sequence, the window filter used by the heart-rate, temperature, and HRV
analyses retains exactly the samples with `start <= timestamp <= end`; in
particular a sample whose timestamp equals `start`, or equals `end`, is
retained. -/
theorem window_filter_inclusive (s e : Int) (l : List Sample) (x : Sample) :
    x ∈ filterWindow s e l ↔ x ∈ l ∧ s ≤ x.timestamp ∧ x.timestamp ≤ e :=
  mem_filterWindow s e l x

theorem hrDropLoop_eq_filterMap (prev : Sample) (l : List Sample) :
    hrDropLoop prev l = (consecutivePairs (prev :: l)).filterMap qualifiesHrDrop := by
  induction l generalizing prev with
  | nil => rfl
  | cons b rest ih =>
      show hrDropLoop prev (b :: rest)
        = (consecutivePairs (prev :: b :: rest)).filterMap qualifiesHrDrop
      rw [consecutivePairs, pairsFrom]
      rw [List.filterMap_cons]
      simp only [consecutivePairs] at ih
      rw [hrDropLoop, ← ih]
      simp only [qualifiesHrDrop]
      push_cast
      by_cases h1 : b.value - prev.value ≤ -10
      · by_cases h2 : ((b.timestamp : ℚ) - (prev.timestamp : ℚ)) / 60 ≤ 30
        · simp [h1, h2]
        · simp [h1, h2]
      · simp [h1]

/-- C1: for every defined sleep window and every heart-rate sample sequence,
the emitted drop events are exactly the consecutive pairs of the
window-filtered, timestamp-sorted samples whose value change is `<= -10` BPM
with at most 30 minutes elapsed; each qualifying pair yields exactly one
event keyed to the later sample's timestamp (no merging of multi-step
declines). -/
theorem heart_rate_drop_detection (hr_values : List Sample) (sleep_obj : SleepObj)
    (s e : Int) (hs : sleep_obj.bedtime_start = some s)
    (he : sleep_obj.bedtime_end = some e) (hs0 : s ≠ 0) (he0 : e ≠ 0) :
    find_heart_rate_drops hr_values sleep_obj
      = (consecutivePairs (sortByTs (filterWindow s e hr_values))).filterMap
          qualifiesHrDrop := by
  unfold find_heart_rate_drops
  rw [hs, he]
  simp only [hs0, he0, or_self, if_neg, false_or]
  match h : sortByTs (filterWindow s e hr_values) with
  | [] => simp [consecutivePairs]
  | first :: rest => simpa using hrDropLoop_eq_filterMap first rest

theorem minByValue_le (a : Sample) (l : List Sample) :
    (minByValue a l).value ≤ a.value ∧ ∀ y ∈ l, (minByValue a l).value ≤ y.value := by
  induction l generalizing a with
  | nil => exact ⟨le_refl _, by simp⟩
  | cons x xs ih =>
    rw [minByValue]
    obtain ⟨h1, h2⟩ := ih (if x.value < a.value then x else a)
    constructor
    · refine le_trans h1 ?_
      by_cases hc : x.value < a.value
      · rw [if_pos hc]; exact le_of_lt hc
      · rw [if_neg hc]
    · intro y hy
      rcases List.mem_cons.mp hy with rfl | hy
      · refine le_trans h1 ?_
        by_cases hc : y.value < a.value
        · rw [if_pos hc]
        · rw [if_neg hc]; exact le_of_not_lt hc
      · exact h2 y hy

theorem minByValue_first (a : Sample) (l : List Sample) :
    ∃ l₁ l₂, a :: l = l₁ ++ minByValue a l :: l₂ ∧
      ∀ y ∈ l₁, (minByValue a l).value < y.value := by
  induction l generalizing a with
  | nil => exact ⟨[], [], rfl, by simp⟩
  | cons x xs ih =>
    rw [minByValue]
    by_cases hc : x.value < a.value
    · rw [if_pos hc]
      obtain ⟨l₁, l₂, heq, hlt⟩ := ih x
      refine ⟨a :: l₁, l₂, ?_, ?_⟩
      · rw [List.cons_append, ← heq]
      · intro y hy
        rcases List.mem_cons.mp hy with rfl | hy
        · exact lt_of_le_of_lt (minByValue_le x xs).1 hc
        · exact hlt y hy
    · rw [if_neg hc]
      obtain ⟨l₁, l₂, heq, hlt⟩ := ih a
      cases l₁ with
      | nil =>
        rw [List.nil_append] at heq
        have hm : a = minByValue a xs := (List.cons_eq_cons.mp heq).1
        refine ⟨[], x :: xs, ?_, by simp⟩
        rw [List.nil_append, ← hm]
      | cons b t =>
        rw [List.cons_append] at heq
        have hb : a = b := (List.cons_eq_cons.mp heq).1
        have hxs : xs = t ++ minByValue a xs :: l₂ := (List.cons_eq_cons.mp heq).2
        have hma : (minByValue a xs).value < a.value := by
          have := hlt b (List.mem_cons_self b t)
          rwa [← hb] at this
        refine ⟨a :: x :: t, l₂, ?_, ?_⟩
        · rw [List.cons_append, List.cons_append, ← hxs]
        · intro y hy
          rcases List.mem_cons.mp hy with rfl | hy
          · exact hma
          rcases List.mem_cons.mp hy with rfl | hy
          · exact lt_of_lt_of_le hma (le_of_not_lt hc)
          · exact hlt y (List.mem_cons_of_mem b hy)

/-- C6: for every defined sleep window, the lowest-heart-rate lookup returns
`none` exactly when no sample is in the window, and otherwise the sample
with minimum value, breaking ties by first occurrence in input (filter)
order: the filtered list splits as `l₁ ++ m :: l₂` where every sample of
`l₁` has a strictly larger value and `m` is a global minimum. -/
theorem lowest_heart_rate_lookup (hr_values : List Sample) (sleep_obj : SleepObj)
    (s e : Int) (hs : sleep_obj.bedtime_start = some s)
    (he : sleep_obj.bedtime_end = some e) (hs0 : s ≠ 0) (he0 : e ≠ 0) :
    (filterWindow s e hr_values = [] → find_lowest_heart_rate hr_values sleep_obj = none)
    ∧ (filterWindow s e hr_values ≠ [] →
        ∃ m l₁ l₂, find_lowest_heart_rate hr_values sleep_obj = some m
          ∧ (∀ y ∈ filterWindow s e hr_values, m.value ≤ y.value)
          ∧ filterWindow s e hr_values = l₁ ++ m :: l₂
          ∧ ∀ y ∈ l₁, m.value < y.value) := by
  simp only [find_lowest_heart_rate, hs, he]
  rw [if_neg (by simp [hs0, he0])]
  constructor
  · intro h
    rw [h]
  · intro h
    cases hf : filterWindow s e hr_values with
    | nil => exact absurd hf h
    | cons x xs =>
      obtain ⟨l₁, l₂, heq, hlt⟩ := minByValue_first x xs
      refine ⟨minByValue x xs, l₁, l₂, rfl, ?_, heq, hlt⟩
      intro y hy
      rcases List.mem_cons.mp hy with h1 | h1
      · rw [h1]; exact (minByValue_le x xs).1
      · exact (minByValue_le x xs).2 y h1

/-- Witness for C1: inside the window `[500, 90000]`, the pair
`[(1000,70),(1300,55)]` (5-minute gap) yields exactly one event of
magnitude 15 keyed to 1300; the same pair with a 3600-second gap yields no
event; a monotonic three-step decline yields two events (no merging). -/
theorem heart_rate_drop_detection_witness :
    find_heart_rate_drops [⟨1000, 70⟩, ⟨1300, 55⟩] ⟨some 500, some 90000, none, []⟩
        = [⟨1300, 70, 55, 15, 5⟩]
    ∧ find_heart_rate_drops [⟨1000, 70⟩, ⟨4600, 55⟩] ⟨some 500, some 90000, none, []⟩ = []
    ∧ find_heart_rate_drops [⟨1000, 90⟩, ⟨1300, 75⟩, ⟨1600, 60⟩] ⟨some 500, some 90000, none, []⟩
        = [⟨1300, 90, 75, 15, 5⟩, ⟨1600, 75, 60, 15, 5⟩] :=
  ⟨(heart_rate_drop_detection _ _ 500 90000 rfl rfl (by decide) (by decide)).trans
     (by norm_num [filterWindow, sortByTs, insertByTs, consecutivePairs, pairsFrom,
           qualifiesHrDrop, List.filter, List.foldr, List.filterMap_cons, List.filterMap_nil]),
   (heart_rate_drop_detection _ _ 500 90000 rfl rfl (by decide) (by decide)).trans
     (by norm_num [filterWindow, sortByTs, insertByTs, consecutivePairs, pairsFrom,
           qualifiesHrDrop, List.filter, List.foldr, List.filterMap_cons, List.filterMap_nil]),
   (heart_rate_drop_detection _ _ 500 90000 rfl rfl (by decide) (by decide)).trans
     (by norm_num [filterWindow, sortByTs, insertByTs, consecutivePairs, pairsFrom,
           qualifiesHrDrop, List.filter, List.foldr, List.filterMap_cons, List.filterMap_nil])⟩

/-- Witness for C6: on `[(1000,72),(1060,58),(1120,65)]` the lookup returns
value 58 at timestamp 1060, and that sample is a first-occurrence minimum of
the filtered set. -/
theorem lowest_heart_rate_lookup_witness :
    find_lowest_heart_rate [⟨1000, 72⟩, ⟨1060, 58⟩, ⟨1120, 65⟩]
        ⟨some 500, some 90000, none, []⟩ = some ⟨1060, 58⟩
    ∧ ∃ m l₁ l₂,
        find_lowest_heart_rate [⟨1000, 72⟩, ⟨1060, 58⟩, ⟨1120, 65⟩]
            ⟨some 500, some 90000, none, []⟩ = some m
        ∧ (∀ y ∈ filterWindow 500 90000 [⟨1000, 72⟩, ⟨1060, 58⟩, ⟨1120, 65⟩], m.value ≤ y.value)
        ∧ filterWindow 500 90000 [⟨1000, 72⟩, ⟨1060, 58⟩, ⟨1120, 65⟩] = l₁ ++ m :: l₂
        ∧ ∀ y ∈ l₁, m.value < y.value :=
  ⟨by norm_num [find_lowest_heart_rate, filterWindow, minByValue, List.filter],
   (lowest_heart_rate_lookup _ _ 500 90000 rfl rfl (by decide) (by decide)).2
     (by decide)⟩

theorem pyInt_intCast (k : Int) : pyInt (k : ℚ) = k := by
  unfold pyInt
  split <;> simp

theorem pyInt_nonneg (q : ℚ) (h : 0 ≤ q) : pyInt q = ⌊q⌋ := by
  unfold pyInt
  rw [if_neg (not_lt.mpr h)]

/-- C7: when both boundaries are present (and truthy), the duration string
is `"{hours}h {minutes}m"` where `hours` is the floor of the
duration-in-minutes divided by 60 and `minutes` is the (floored) remainder
of that division. -/
theorem sleep_duration_formatting (sleep_obj : SleepObj) (s e : Int)
    (hs : sleep_obj.bedtime_start = some s) (he : sleep_obj.bedtime_end = some e)
    (hs0 : s ≠ 0) (he0 : e ≠ 0) :
    (get_sleep_metrics sleep_obj).map (fun m => m.duration_formatted)
      = some (toString ⌊((e - s : Int) : ℚ) / 60 / 60⌋ ++ "h "
          ++ toString (⌊((e - s : Int) : ℚ) / 60⌋ - 60 * ⌊((e - s : Int) : ℚ) / 60 / 60⌋)
          ++ "m") := by
  have h1 : pyInt (pyFloorDiv (((e - s : Int) : ℚ) / 60) 60)
      = ⌊((e - s : Int) : ℚ) / 60 / 60⌋ := by
    rw [pyFloorDiv, pyInt_intCast]
  have hfl : ((⌊((e - s : Int) : ℚ) / 60 / 60⌋ : Int) : ℚ) ≤ ((e - s : Int) : ℚ) / 60 / 60 :=
    Int.floor_le _
  have hnn : 0 ≤ pyMod (((e - s : Int) : ℚ) / 60) 60 := by
    rw [pyMod, pyFloorDiv]
    have h60 : (60 : ℚ) * (((⌊((e - s : Int) : ℚ) / 60 / 60⌋ : Int) : ℚ))
        ≤ 60 * (((e - s : Int) : ℚ) / 60 / 60) := by
      exact mul_le_mul_of_nonneg_left hfl (by norm_num)
    have hc : (60 : ℚ) * (((e - s : Int) : ℚ) / 60 / 60) = ((e - s : Int) : ℚ) / 60 := by
      field_simp
      ring
    linarith
  have h2 : pyInt (pyMod (((e - s : Int) : ℚ) / 60) 60)
      = ⌊((e - s : Int) : ℚ) / 60⌋ - 60 * ⌊((e - s : Int) : ℚ) / 60 / 60⌋ := by
    rw [pyInt_nonneg _ hnn, pyMod, pyFloorDiv]
    rw [show (60 : ℚ) * ((⌊((e - s : Int) : ℚ) / 60 / 60⌋ : Int) : ℚ)
        = (((60 * ⌊((e - s : Int) : ℚ) / 60 / 60⌋ : Int)) : ℚ) by push_cast; ring]
    rw [Int.floor_sub_int]
  simp only [get_sleep_metrics, hs, he]
  rw [if_neg (by simp [hs0, he0])]
  simp only [Option.map_some']
  rw [h1, h2]

/-- Witness for C7: a window of exactly 450 minutes (27000 seconds, from
1000 to 28000) formats as `"7h 30m"`. -/
theorem sleep_duration_formatting_witness :
    (get_sleep_metrics ⟨some 1000, some 28000, none, []⟩).map (fun m => m.duration_formatted)
      = some ("7h 30m") :=
  (sleep_duration_formatting _ 1000 28000 rfl rfl (by decide) (by decide)).trans
    (by norm_num
        rfl)

/-- C5: the HRV aggregation contract: a present `avg_sleep_hrv` field always
wins (its `value` entry is reported as-is); with the field absent and a
defined (truthy) window, a non-empty in-window sample set yields the mean
truncated to an integer; with the field absent and no sample in the window,
the result is undefined (`none`), not zero. -/
theorem avg_hrv_contract (hrv_values : List Sample) (sleep_obj : SleepObj) :
    (∀ v, sleep_obj.avg_sleep_hrv = some v → compute_avg_hrv hrv_values sleep_obj = v)
    ∧ (∀ s e, sleep_obj.avg_sleep_hrv = none →
        sleep_obj.bedtime_start = some s → sleep_obj.bedtime_end = some e →
        s ≠ 0 → e ≠ 0 → filterWindow s e hrv_values ≠ [] →
        compute_avg_hrv hrv_values sleep_obj
          = some ((pyInt (sumValues (filterWindow s e hrv_values)
              / ((filterWindow s e hrv_values).length : ℚ)) : Int) : ℚ))
    ∧ (sleep_obj.avg_sleep_hrv = none →
        (∀ x ∈ hrv_values, ¬ inSleepWindow sleep_obj x) →
        compute_avg_hrv hrv_values sleep_obj = none) := by
  refine ⟨?_, ?_, ?_⟩
  · intro v hv
    simp [compute_avg_hrv, hv]
  · intro s e ha hs he hs0 he0 hne
    simp only [compute_avg_hrv, ha, hs, he]
    rw [if_neg]
    · cases hf : filterWindow s e hrv_values with
      | nil => exact absurd hf hne
      | cons x xs => rfl
    · push_neg
      refine ⟨?_, hs0, he0⟩
      intro h0
      exact hne (by rw [h0]; rfl)
  · intro ha hnone
    cases hbs : sleep_obj.bedtime_start with
    | none => simp [compute_avg_hrv, ha, hbs]
    | some s =>
      cases hbe : sleep_obj.bedtime_end with
      | none => simp [compute_avg_hrv, ha, hbs, hbe]
      | some e =>
        simp only [compute_avg_hrv, ha, hbs, hbe]
        by_cases hz : hrv_values = [] ∨ s = 0 ∨ e = 0
        · rw [if_pos hz]
        · rw [if_neg hz]
          cases hf : filterWindow s e hrv_values with
          | nil => rfl
          | cons x xs =>
            exfalso
            have hx : x ∈ filterWindow s e hrv_values := by rw [hf]; exact List.mem_cons_self x xs
            rw [mem_filterWindow] at hx
            exact hnone x hx.1 ⟨s, e, hbs, hbe, hx.2.1, hx.2.2⟩

/-- Witness for C5: with `avg_sleep_hrv` present carrying value 42, 42 is
reported even though the in-window samples (values 50 and 55) would
recompute to 52; with the field absent the same samples yield the truncated
mean 52; with the field absent and no in-window sample the result is
`none`. -/
theorem avg_hrv_contract_witness :
    compute_avg_hrv [⟨1000, 50⟩, ⟨1300, 55⟩] ⟨some 500, some 90000, some (some 42), []⟩
        = some 42
    ∧ compute_avg_hrv [⟨1000, 50⟩, ⟨1300, 55⟩] ⟨some 500, some 90000, none, []⟩
        = some 52
    ∧ compute_avg_hrv [⟨100, 50⟩] ⟨some 500, some 90000, none, []⟩ = none :=
  ⟨(avg_hrv_contract [⟨1000, 50⟩, ⟨1300, 55⟩] ⟨some 500, some 90000, some (some 42), []⟩).1
      (some 42) rfl,
   ((avg_hrv_contract [⟨1000, 50⟩, ⟨1300, 55⟩] ⟨some 500, some 90000, none, []⟩).2.1
      500 90000 rfl rfl rfl (by decide) (by decide) (by decide)).trans
     (by norm_num [filterWindow, List.filter, sumValues, pyInt]),
   (avg_hrv_contract [⟨100, 50⟩] ⟨some 500, some 90000, none, []⟩).2.2 rfl
     (by
       intro x hx hw
       obtain ⟨s, e, hs, he, h1, h2⟩ := hw
       simp at hx
       subst hx
       simp at hs he h1 h2
       omega)⟩

/-- C9: a present `avg_sleep_hrv` key whose entry lacks a `value` (or holds
null) makes the reported average HRV `none`: the key's presence alone
disables the fallback recomputation, even when in-window samples exist. -/
theorem avg_hrv_null_value_wins (hrv_values : List Sample) (sleep_obj : SleepObj)
    (h : sleep_obj.avg_sleep_hrv = some none) :
    compute_avg_hrv hrv_values sleep_obj = none := by
  simp [compute_avg_hrv, h]

/-- Witness for C9: the window is defined, an in-window HRV sample exists,
yet the null-valued `avg_sleep_hrv` key suppresses any average. -/
theorem avg_hrv_null_value_wins_witness :
    compute_avg_hrv [⟨1000, 50⟩] ⟨some 500, some 90000, some none, []⟩ = none :=
  avg_hrv_null_value_wins [⟨1000, 50⟩] ⟨some 500, some 90000, some none, []⟩ rfl

/-- C4 (code bug): a sleep object with `bedtime_start` PRESENT and equal to
the legitimate epoch value 0 is treated by the code exactly like a missing
window, because the guards use Python value-truthiness (`if not
bedtime_start`): all analyses collapse to their no-data state even though
qualifying samples lie inside `[0, 3600]`. -/
theorem zero_bedtime_collapses_to_no_data :
    find_heart_rate_drops [⟨60, 70⟩, ⟨360, 55⟩] ⟨some 0, some 3600, none, []⟩ = []
    ∧ find_lowest_heart_rate [⟨60, 70⟩, ⟨360, 55⟩] ⟨some 0, some 3600, none, []⟩ = none
    ∧ get_sleep_metrics ⟨some 0, some 3600, none, []⟩ = none
    ∧ analyze_temperature_data [⟨60, 36⟩] ⟨some 0, some 3600, none, []⟩ = none
    ∧ compute_avg_hrv [⟨60, 50⟩] ⟨some 0, some 3600, none, []⟩ = none :=
  ⟨rfl, rfl, rfl, rfl, rfl⟩

/-- C8: metric-stream extraction is all-or-nothing: if any of the four type
scans raises (`Except.error`), `extract_metrics_data` returns the empty
defaults for all four streams, not just for the stream whose scan failed. -/
theorem extract_all_or_nothing (api : ApiData) (md : List MetricEntry)
    (hmd : api.metric_data = some md)
    (h : findFirstType "hr" md = Except.error ()
       ∨ findFirstType "Sleep" md = Except.error ()
       ∨ findFirstType "hrv" md = Except.error ()
       ∨ findFirstType "temp" md = Except.error ()) :
    extract_metrics_data api = ([], emptySleepObj, [], []) := by
  simp only [extract_metrics_data, hmd, Option.getD_some]
  rcases h with h | h | h | h
  · rw [h]
  · cases h1 : findFirstType "hr" md with
    | error u => rfl
    | ok a => rw [h]
  · cases h1 : findFirstType "hr" md with
    | error u => rfl
    | ok a =>
      cases h2 : findFirstType "Sleep" md with
      | error u => rfl
      | ok b => rw [h]
  · cases h1 : findFirstType "hr" md with
    | error u => rfl
    | ok a =>
      cases h2 : findFirstType "Sleep" md with
      | error u => rfl
      | ok b =>
        cases h3 : findFirstType "hrv" md with
        | error u => rfl
        | ok c => rw [h]

/-- Witness for C8: the first entry lacks a `type` key, so the "hr" scan
raises; although well-formed Sleep and temp entries follow, all four streams
collapse to their empty defaults. -/
theorem extract_all_or_nothing_witness :
    extract_metrics_data ⟨some [⟨none, ⟨[], emptySleepObj⟩⟩,
        ⟨some "Sleep", ⟨[], ⟨some 500, some 90000, none, []⟩⟩⟩,
        ⟨some "temp", ⟨[⟨1000, 37⟩], emptySleepObj⟩⟩]⟩
      = ([], emptySleepObj, [], []) :=
  extract_all_or_nothing _ _ rfl (Or.inl rfl)

theorem tempDropLoop_eq_filterMap (prev : Sample) (l : List Sample) :
    tempDropLoop prev l = (consecutivePairs (prev :: l)).filterMap qualifiesTempDrop := by
  induction l generalizing prev with
  | nil => rfl
  | cons b rest ih =>
      show tempDropLoop prev (b :: rest)
        = (consecutivePairs (prev :: b :: rest)).filterMap qualifiesTempDrop
      rw [consecutivePairs, pairsFrom]
      rw [List.filterMap_cons]
      simp only [consecutivePairs] at ih
      rw [tempDropLoop, ← ih]
      simp only [qualifiesTempDrop]
      by_cases h1 : b.value - prev.value ≤ -1
      · simp [h1]
      · simp [h1]

/-- C2: for every defined sleep window, the temperature drop events are
exactly the consecutive pairs of the window-filtered, timestamp-sorted
samples whose value change is `<= -1.0` °C, with no elapsed-time ceiling. -/
theorem temperature_drop_detection (temp_values : List Sample) (sleep_obj : SleepObj)
    (s e : Int) (hs : sleep_obj.bedtime_start = some s)
    (he : sleep_obj.bedtime_end = some e) (prof : TempProfile)
    (hp : analyze_temperature_data temp_values sleep_obj = some prof) :
    prof.temp_drops
      = (consecutivePairs (sortByTs (filterWindow s e temp_values))).filterMap
          qualifiesTempDrop := by
  simp only [analyze_temperature_data, hs, he] at hp
  by_cases h0 : s = 0 ∨ e = 0 ∨ temp_values = []
  · rw [if_pos h0] at hp
    cases hp
  · rw [if_neg h0] at hp
    cases hf : sortByTs (filterWindow s e temp_values) with
    | nil =>
      rw [hf] at hp
      cases hp
    | cons x xs =>
      rw [hf] at hp
      have hrec := Option.some.inj hp
      rw [← hrec]
      exact tempDropLoop_eq_filterMap x xs

/-- Witness for C2: `[(1000,36.5),(8200,35.2)]` — a 2-hour gap — still
yields exactly one DropEvent of magnitude 1.3 °C. -/
theorem temperature_drop_detection_witness :
    ∃ prof, analyze_temperature_data [⟨1000, 36.5⟩, ⟨8200, 35.2⟩]
        ⟨some 500, some 90000, none, []⟩ = some prof
      ∧ prof.temp_drops = [⟨8200, 36.5, 35.2, 1.3, 120⟩] := by
  obtain ⟨prof, hp⟩ : ∃ prof, analyze_temperature_data [⟨1000, 36.5⟩, ⟨8200, 35.2⟩]
      ⟨some 500, some 90000, none, []⟩ = some prof := ⟨_, rfl⟩
  refine ⟨prof, hp, ?_⟩
  rw [temperature_drop_detection _ _ 500 90000 rfl rfl prof hp]
  norm_num [filterWindow, sortByTs, insertByTs, consecutivePairs, pairsFrom,
    qualifiesTempDrop, round2, roundHalfEven, List.filter, List.foldr,
    List.filterMap_cons, List.filterMap_nil, abs_of_nonneg, Int.fract]

theorem minByValue_mem (a : Sample) (l : List Sample) :
    minByValue a l = a ∨ minByValue a l ∈ l := by
  induction l generalizing a with
  | nil => left; rfl
  | cons x xs ih =>
    rw [minByValue]
    rcases ih (if x.value < a.value then x else a) with h | h
    · by_cases hc : x.value < a.value
      · right
        rw [h, if_pos hc]
        exact List.mem_cons_self x xs
      · left
        rw [h, if_neg hc]
    · right
      exact List.mem_cons_of_mem x h

theorem maxByValue_mem (a : Sample) (l : List Sample) :
    maxByValue a l = a ∨ maxByValue a l ∈ l := by
  induction l generalizing a with
  | nil => left; rfl
  | cons x xs ih =>
    rw [maxByValue]
    rcases ih (if a.value < x.value then x else a) with h | h
    · by_cases hc : a.value < x.value
      · right
        rw [h, if_pos hc]
        exact List.mem_cons_self x xs
      · left
        rw [h, if_neg hc]
    · right
      exact List.mem_cons_of_mem x h

theorem maxByValue_ge (a : Sample) (l : List Sample) :
    a.value ≤ (maxByValue a l).value ∧ ∀ y ∈ l, y.value ≤ (maxByValue a l).value := by
  induction l generalizing a with
  | nil => exact ⟨le_refl _, by simp⟩
  | cons x xs ih =>
    rw [maxByValue]
    obtain ⟨h1, h2⟩ := ih (if a.value < x.value then x else a)
    constructor
    · refine le_trans ?_ h1
      by_cases hc : a.value < x.value
      · rw [if_pos hc]; exact le_of_lt hc
      · rw [if_neg hc]
    · intro y hy
      rcases List.mem_cons.mp hy with h3 | h3
      · refine le_trans ?_ h1
        rw [h3]
        by_cases hc : a.value < x.value
        · rw [if_pos hc]
        · rw [if_neg hc]; exact le_of_not_lt hc
      · exact h2 y h3

theorem foldMin_eq_minByValue (a : Sample) (l : List Sample) :
    foldMin a.value (l.map (fun t => t.value)) = (minByValue a l).value := by
  induction l generalizing a with
  | nil => rfl
  | cons x xs ih =>
    rw [List.map_cons, foldMin, minByValue]
    have hv : min a.value x.value = (if x.value < a.value then x else a).value := by
      by_cases hc : x.value < a.value
      · rw [if_pos hc, min_eq_right (le_of_lt hc)]
      · rw [if_neg hc, min_eq_left (le_of_not_lt hc)]
    rw [hv, ih]

theorem foldMax_eq_maxByValue (a : Sample) (l : List Sample) :
    foldMax a.value (l.map (fun t => t.value)) = (maxByValue a l).value := by
  induction l generalizing a with
  | nil => rfl
  | cons x xs ih =>
    rw [List.map_cons, foldMax, maxByValue]
    have hv : max a.value x.value = (if a.value < x.value then x else a).value := by
      by_cases hc : a.value < x.value
      · rw [if_pos hc, max_eq_right (le_of_lt hc)]
      · rw [if_neg hc, max_eq_left (le_of_not_lt hc)]
    rw [hv, ih]

theorem le_sumValues (l : List Sample) (c : ℚ) (h : ∀ z ∈ l, c ≤ z.value) :
    (l.length : ℚ) * c ≤ sumValues l := by
  induction l with
  | nil => simp [sumValues]
  | cons x xs ih =>
    have hx : c ≤ x.value := h x (List.mem_cons_self x xs)
    have hxs : ((xs.length : ℚ)) * c ≤ sumValues xs :=
      ih (fun z hz => h z (List.mem_cons_of_mem x hz))
    have hsum : sumValues (x :: xs) = x.value + sumValues xs := by
      simp [sumValues]
    rw [hsum]
    simp only [List.length_cons]
    push_cast
    linarith

theorem sumValues_le (l : List Sample) (c : ℚ) (h : ∀ z ∈ l, z.value ≤ c) :
    sumValues l ≤ (l.length : ℚ) * c := by
  induction l with
  | nil => simp [sumValues]
  | cons x xs ih =>
    have hx : x.value ≤ c := h x (List.mem_cons_self x xs)
    have hxs : sumValues xs ≤ ((xs.length : ℚ)) * c :=
      ih (fun z hz => h z (List.mem_cons_of_mem x hz))
    have hsum : sumValues (x :: xs) = x.value + sumValues xs := by
      simp [sumValues]
    rw [hsum]
    simp only [List.length_cons]
    push_cast
    linarith

theorem roundHalfEven_bounds (x : ℚ) :
    ⌊x⌋ ≤ roundHalfEven x ∧ roundHalfEven x ≤ ⌊x⌋ + 1 := by
  unfold roundHalfEven
  split_ifs <;> omega

theorem roundHalfEven_mono {x y : ℚ} (h : x ≤ y) :
    roundHalfEven x ≤ roundHalfEven y := by
  have hfxy : ⌊x⌋ ≤ ⌊y⌋ := Int.floor_le_floor h
  by_cases heq : ⌊x⌋ = ⌊y⌋
  · have hfr : x - ((⌊y⌋ : Int) : ℚ) ≤ y - ((⌊y⌋ : Int) : ℚ) := by linarith
    unfold roundHalfEven
    rw [heq]
    split_ifs <;> first | omega | linarith
  · have hx2 := (roundHalfEven_bounds x).2
    have hy1 := (roundHalfEven_bounds y).1
    omega

theorem round2_mono {x y : ℚ} (h : x ≤ y) : round2 x ≤ round2 y := by
  unfold round2
  have h1 : roundHalfEven (x * 100) ≤ roundHalfEven (y * 100) :=
    roundHalfEven_mono (by linarith)
  have h2 : ((roundHalfEven (x * 100) : Int) : ℚ) ≤ ((roundHalfEven (y * 100) : Int) : ℚ) := by
    exact_mod_cast h1
  linarith

/-- C10: every produced temperature profile satisfies
`min_temp <= avg_temp <= max_temp` (on the reported, 2-decimal-rounded
stats), `variation` is the rounded difference of the true extremes, and the
reported extreme-temperature timestamps belong to in-window samples
attaining those extreme values. -/
theorem temperature_profile_invariants (temp_values : List Sample)
    (sleep_obj : SleepObj) (s e : Int) (hs : sleep_obj.bedtime_start = some s)
    (he : sleep_obj.bedtime_end = some e) (prof : TempProfile)
    (hp : analyze_temperature_data temp_values sleep_obj = some prof) :
    prof.min_temp ≤ prof.avg_temp ∧ prof.avg_temp ≤ prof.max_temp
    ∧ ∃ mn mx, mn ∈ filterWindow s e temp_values ∧ mx ∈ filterWindow s e temp_values
        ∧ (∀ z ∈ filterWindow s e temp_values, mn.value ≤ z.value ∧ z.value ≤ mx.value)
        ∧ prof.min_temp = round2 mn.value ∧ prof.max_temp = round2 mx.value
        ∧ prof.variation = round2 (mx.value - mn.value)
        ∧ prof.min_temp_time = mn.timestamp ∧ prof.max_temp_time = mx.timestamp := by
  simp only [analyze_temperature_data, hs, he] at hp
  by_cases h0 : s = 0 ∨ e = 0 ∨ temp_values = []
  · rw [if_pos h0] at hp
    cases hp
  · rw [if_neg h0] at hp
    cases hf : sortByTs (filterWindow s e temp_values) with
    | nil =>
      rw [hf] at hp
      cases hp
    | cons x xs =>
      rw [hf] at hp
      have hrec := (Option.some.inj hp).symm
      subst hrec
      have hmem : ∀ z : Sample, z ∈ x :: xs ↔ z ∈ filterWindow s e temp_values := by
        intro z
        rw [← hf, mem_sortByTs]
      have hminle : ∀ z ∈ x :: xs, (minByValue x xs).value ≤ z.value := by
        intro z hz
        rcases List.mem_cons.mp hz with h1 | h1
        · rw [h1]; exact (minByValue_le x xs).1
        · exact (minByValue_le x xs).2 z h1
      have hmaxge : ∀ z ∈ x :: xs, z.value ≤ (maxByValue x xs).value := by
        intro z hz
        rcases List.mem_cons.mp hz with h1 | h1
        · rw [h1]; exact (maxByValue_ge x xs).1
        · exact (maxByValue_ge x xs).2 z h1
      have hlen : (0 : ℚ) < (((x :: xs).length : Nat) : ℚ) := by
        rw [List.length_cons]
        push_cast
        positivity
      have havg_ge : (minByValue x xs).value
          ≤ sumValues (x :: xs) / (((x :: xs).length : Nat) : ℚ) := by
        rw [le_div_iff₀ hlen, mul_comm]
        exact le_sumValues (x :: xs) _ hminle
      have havg_le : sumValues (x :: xs) / (((x :: xs).length : Nat) : ℚ)
          ≤ (maxByValue x xs).value := by
        rw [div_le_iff₀ hlen, mul_comm]
        exact sumValues_le (x :: xs) _ hmaxge
      refine ⟨?_, ?_, minByValue x xs, maxByValue x xs, ?_, ?_, ?_, ?_, ?_, ?_, rfl, rfl⟩
      · show round2 (foldMin x.value (xs.map (fun t => t.value)))
            ≤ round2 (sumValues (x :: xs) / (((x :: xs).length : Nat) : ℚ))
        rw [foldMin_eq_minByValue]
        exact round2_mono havg_ge
      · show round2 (sumValues (x :: xs) / (((x :: xs).length : Nat) : ℚ))
            ≤ round2 (foldMax x.value (xs.map (fun t => t.value)))
        rw [foldMax_eq_maxByValue]
        exact round2_mono havg_le
      · rcases minByValue_mem x xs with h1 | h1
        · rw [h1, ← hmem]
          exact List.mem_cons_self x xs
        · rw [← hmem]
          exact List.mem_cons_of_mem x h1
      · rcases maxByValue_mem x xs with h1 | h1
        · rw [h1, ← hmem]
          exact List.mem_cons_self x xs
        · rw [← hmem]
          exact List.mem_cons_of_mem x h1
      · intro z hz
        rw [← hmem] at hz
        exact ⟨hminle z hz, hmaxge z hz⟩
      · show round2 (foldMin x.value (xs.map (fun t => t.value)))
            = round2 (minByValue x xs).value
        rw [foldMin_eq_minByValue]
      · show round2 (foldMax x.value (xs.map (fun t => t.value)))
            = round2 (maxByValue x xs).value
        rw [foldMax_eq_maxByValue]
      · show round2 (foldMax x.value (xs.map (fun t => t.value))
              - foldMin x.value (xs.map (fun t => t.value)))
            = round2 ((maxByValue x xs).value - (minByValue x xs).value)
        rw [foldMax_eq_maxByValue, foldMin_eq_minByValue]

/-- Witness for C10: the invariants instantiated on the concrete profile of
`[(1000,36.2),(8200,35.0),(4000,36.9)]` over the window `[500, 90000]`. -/
theorem temperature_profile_invariants_witness :
    ∃ prof, analyze_temperature_data [⟨1000, 36.2⟩, ⟨8200, 35.0⟩, ⟨4000, 36.9⟩]
        ⟨some 500, some 90000, none, []⟩ = some prof
      ∧ (prof.min_temp ≤ prof.avg_temp ∧ prof.avg_temp ≤ prof.max_temp
        ∧ ∃ mn mx,
            mn ∈ filterWindow 500 90000 [⟨1000, 36.2⟩, ⟨8200, 35.0⟩, ⟨4000, 36.9⟩]
            ∧ mx ∈ filterWindow 500 90000 [⟨1000, 36.2⟩, ⟨8200, 35.0⟩, ⟨4000, 36.9⟩]
            ∧ (∀ z ∈ filterWindow 500 90000 [⟨1000, 36.2⟩, ⟨8200, 35.0⟩, ⟨4000, 36.9⟩],
                mn.value ≤ z.value ∧ z.value ≤ mx.value)
            ∧ prof.min_temp = round2 mn.value ∧ prof.max_temp = round2 mx.value
            ∧ prof.variation = round2 (mx.value - mn.value)
            ∧ prof.min_temp_time = mn.timestamp ∧ prof.max_temp_time = mx.timestamp) := by
  obtain ⟨prof, hp⟩ : ∃ prof, analyze_temperature_data
      [⟨1000, 36.2⟩, ⟨8200, 35.0⟩, ⟨4000, 36.9⟩]
      ⟨some 500, some 90000, none, []⟩ = some prof := ⟨_, rfl⟩
  exact ⟨prof, hp, temperature_profile_invariants _ _ 500 90000 rfl rfl prof hp⟩

end UhMcp
